import Mathlib

/-!
Shallow embedding of yoga-image-optimizer's two source files:

* `src/yoga_image_optimizer/image_store.py` — the `ImageStore` class: a flat
  table (backed by a `Gtk.ListStore`) with derived display columns recomputed
  inside `update` when their trigger fields appear among the written kwargs.
* `src/yoga_image_optimizer/application.py` — the
  `YogaImageOptimizerApplication` controller: `optimize` submits one task per
  row to a thread pool, `_update_optimization_status` polls the futures on a
  fixed timer, `stop_optimization` cancels on stop.

Python modules imported by the sources but absent from the repository snapshot
(`helpers`, `translation`, `image_formats`) and Python/OS library functions
(`pathlib`, `os.path`, `os.stat`, `%`-formatting of floats) are treated as
external: the embedding is parameterised over them by a `Helpers` structure
and a formats table, and concrete sample instantiations (marked
"Modelled from the spec") are used only to evaluate the model on concrete
inputs.

Python exceptions are modelled by an `Err` value returned next to the
(possibly partially mutated) state, matching the in-place mutation of the
underlying `Gtk.ListStore`: an exception raised midway leaves earlier writes
applied.
-/

/-- A value stored in a column of the `Gtk.ListStore`.  The column types come
from `ImageStore.FIELDS` (`str`, `int`, `bool`, `GdkPixbuf.Pixbuf`); the
pixbuf is opaque to this model. -/
inductive Value where
  | vStr (s : String)
  | vInt (n : Int)
  | vBool (b : Bool)
  | vPixbuf (p : Option Unit)
  deriving DecidableEq

/-- A Python exception escaping one of the modelled methods.
`keyError k` stands for Python `KeyError` whose argument names `k`
(for field validation the message is literally `Invalid field <k>`);
`indexError` for `IndexError` (including the one `remove_at_index` raises
after catching the underlying `ValueError`); `zeroDivisionError` for the
`ZeroDivisionError` of `output_size / input_size`; `typeError` for the
`TypeError` the list store raises on a value of the wrong column type. -/
inductive Err where
  | keyError (k : String)
  | indexError
  | zeroDivisionError
  | typeError
  deriving DecidableEq

/-- Modelled from the spec: one entry of `IMAGES_FORMATS` from the module
`image_formats`, which is imported by `image_store.py` but not part of the
repository snapshot.  `image_store.py` reads exactly two of its keys:
`display_name` and `exts` (a list of file extensions, `exts[0]` being the
canonical one). -/
structure FormatInfo where
  display_name : String
  exts : List String
  deriving DecidableEq

/-- The `IMAGES_FORMATS` table: an ordered association of format identifiers
(such as `jpeg`, `png`, `webp`) to their info.  Kept abstract because
`image_formats.py` is not in the snapshot. -/
abbrev FormatsTable := List (String × FormatInfo)

/-- External functions used by the two source files whose implementations live
outside them: `pathlib.Path.name` / `.parent` / `.with_suffix`,
`os.path.relpath`, `helpers.human_readable_file_size`,
`translation.format_string` applied to the pattern `%.1f`,
`translation.gettext`, and `os.stat(...).st_size`.  The embedding is
parameterised over this record; theorems hold for every instantiation. -/
structure Helpers where
  /-- `pathlib.Path(s).name` -/
  pathName : String → String
  /-- `pathlib.Path(s).parent`, as a string -/
  parentDir : String → String
  /-- `pathlib.Path(s).with_suffix(ext)`, as a string -/
  withSuffix : String → String → String
  /-- `os.path.relpath(path, start)` -/
  relpath : String → String → String
  /-- `helpers.human_readable_file_size(n)` -/
  humanSize : Int → String
  /-- `translation.format_string("%.1f", q)` -/
  fmt1 : Rat → String
  /-- `translation.gettext` -/
  tr : String → String
  /-- `os.stat(path).st_size` -/
  fileSize : String → Int

/-- One row of the image store, with one (typed) component per entry of
`ImageStore.FIELDS`.  The Gtk column ids are the declaration order below. -/
structure Row where
  input_file : String
  output_file : String
  input_file_display : String
  output_file_display : String
  input_size : Int
  output_size : Int
  input_size_display : String
  output_size_display : String
  input_format : String
  output_format : String
  output_format_display : String
  preview : Option Unit
  separator : String
  status : Int
  status_display : String
  jpeg_quality : Int
  webp_quality : Int
  png_slow_optimization : Bool
  deriving DecidableEq

/-- The keys of `ImageStore.FIELDS`, in declaration order. -/
def FIELD_NAMES : List String :=
  ["input_file", "output_file", "input_file_display", "output_file_display",
   "input_size", "output_size", "input_size_display", "output_size_display",
   "input_format", "output_format", "output_format_display", "preview",
   "separator", "status", "status_display", "jpeg_quality", "webp_quality",
   "png_slow_optimization"]

/-- The row built by `append` before `update` is applied: every field holds
the `default` of its `FIELDS` entry. -/
def defaultRow : Row where
  input_file := ""
  output_file := ""
  input_file_display := ""
  output_file_display := ""
  input_size := 0
  output_size := 0
  input_size_display := ""
  output_size_display := ""
  input_format := ""
  output_format := ""
  output_format_display := ""
  preview := none
  separator := "➡️"
  status := 0
  status_display := ""
  jpeg_quality := 90
  webp_quality := 90
  png_slow_optimization := false

/-- `ImageStore._update_field` restricted to one row: writes `v` into the
column named `field_name`.  Returns `none` when the name is unknown or the
value has the wrong column type (in which case the `Gtk.ListStore`
assignment would raise; after the validation loop of `update`/`append`
the name is always known). -/
def updateField (r : Row) (field_name : String) (v : Value) : Option Row :=
  match field_name, v with
  | "input_file", .vStr s => some { r with input_file := s }
  | "output_file", .vStr s => some { r with output_file := s }
  | "input_file_display", .vStr s => some { r with input_file_display := s }
  | "output_file_display", .vStr s => some { r with output_file_display := s }
  | "input_size", .vInt n => some { r with input_size := n }
  | "output_size", .vInt n => some { r with output_size := n }
  | "input_size_display", .vStr s => some { r with input_size_display := s }
  | "output_size_display", .vStr s => some { r with output_size_display := s }
  | "input_format", .vStr s => some { r with input_format := s }
  | "output_format", .vStr s => some { r with output_format := s }
  | "output_format_display", .vStr s => some { r with output_format_display := s }
  | "preview", .vPixbuf p => some { r with preview := p }
  | "separator", .vStr s => some { r with separator := s }
  | "status", .vInt n => some { r with status := n }
  | "status_display", .vStr s => some { r with status_display := s }
  | "jpeg_quality", .vInt n => some { r with jpeg_quality := n }
  | "webp_quality", .vInt n => some { r with webp_quality := n }
  | "png_slow_optimization", .vBool b => some { r with png_slow_optimization := b }
  | _, _ => none

/-- The store is the list of rows of the backing `Gtk.ListStore`. -/
abbrev Store := List Row

/-- The keyword arguments of an `append`/`update` call, in keyword order
(Python keeps keyword order in `**kwargs`). -/
abbrev Kwargs := List (String × Value)

/-- The validation loop shared by `append` and `update`: the first keyword
whose name is not a key of `FIELDS`, if any (Python raises
`KeyError("Invalid field <key>")` on it). -/
def validateKeys (kwargs : Kwargs) : Option String :=
  (kwargs.find? (fun kv => !(FIELD_NAMES.contains kv.1))).map (fun kv => kv.1)

/-! ### The derived-column formulas

Each formula below is read off the corresponding recomputation block of
`ImageStore.update`; the blocks read the current row via `self.get(index)`,
so the formulas are functions of a `Row`. -/

/-- `Path(input_file).name` — the `input_file_display` block. -/
def inputFileDisplayOf (h : Helpers) (r : Row) : String :=
  h.pathName r.input_file

/-- `os.path.relpath(output_file, start=Path(input_file).parent)` — the
`output_file_display` block. -/
def outputFileDisplayOf (h : Helpers) (r : Row) : String :=
  h.relpath r.output_file (h.parentDir r.input_file)

/-- `helpers.human_readable_file_size(input_size)` — the
`input_size_display` block. -/
def inputSizeDisplayOf (h : Helpers) (r : Row) : String :=
  h.humanSize r.input_size

/-- The `output_size_display` block: empty unless `output_size > 0`, else
the human size followed by the signed percentage
`-(100 - output_size / input_size * 100)` rendered with `%.1f`.
`none` when the division `output_size / input_size` raises
`ZeroDivisionError` (the guard only checks `output_size > 0`). -/
def outputSizeDisplayOf (h : Helpers) (r : Row) : Option String :=
  if r.output_size > 0 then
    if r.input_size = 0 then none
    else
      some (h.humanSize r.output_size ++ " ("
        ++ (if r.output_size > r.input_size then "+" else "")
        ++ h.fmt1 (-(100 - (r.output_size : Rat) / (r.input_size : Rat) * 100))
        ++ " %)")
  else some ""

/-- The `output_format_display` branch of `update`: the display name of the
output format, with the quality percentage appended for `jpeg`/`webp` and a
`(slow)` marker for `png` when `png_slow_optimization` is on.  `none` when
the `IMAGES_FORMATS` lookup raises `KeyError`. -/
def outputFormatDisplayOf (fmts : FormatsTable) (r : Row) : Option String :=
  match r.output_format with
  | "jpeg" =>
      (fmts.lookup "jpeg").map
        (fun fi => fi.display_name ++ " (" ++ toString r.jpeg_quality ++ " %)")
  | "webp" =>
      (fmts.lookup "webp").map
        (fun fi => fi.display_name ++ " (" ++ toString r.webp_quality ++ " %)")
  | "png" =>
      (fmts.lookup "png").map
        (fun fi => fi.display_name
          ++ (if r.png_slow_optimization then " (slow)" else ""))
  | f => (fmts.lookup f).map (fun fi => fi.display_name)

/-- The `_STATUS` lookup of the `status_display` block; `none` when the
status value is outside the `_STATUS` dict (Python `KeyError`). -/
def statusDisplayOf (h : Helpers) (r : Row) : Option String :=
  match r.status with
  | 0 => some ""
  | 1 => some ("⏸️ " ++ h.tr "Pending")
  | 2 => some ("🔄️ " ++ h.tr "In progress")
  | 3 => some ("✅️ " ++ h.tr "Done")
  | _ => none

/-- The dict comprehension `_FORMATS_EXTS = {fid: fmt["exts"][0] ...}` built
at the top of the format block; it evaluates `exts[0]` for *every* format
eagerly, so it raises `IndexError` (`none`) as soon as one format has an
empty extension list. -/
def buildFormatsExts : FormatsTable → Option (List (String × String))
  | [] => some []
  | (fid, fmt) :: rest =>
      match fmt.exts.head? with
      | none => none
      | some e =>
          match buildFormatsExts rest with
          | none => none
          | some tail => some ((fid, e) :: tail)

/-! ### The recomputation cascade of `ImageStore.update`

Each cascade is one `if <trigger> in kwargs:` block, acting on the row at
`index` (`keys` is the list of written keyword names).  A cascade returns
the (possibly partially) updated row together with the exception it raised,
if any. -/

/-- Chains row transformers, stopping at the first exception while keeping
the writes already applied (the `Gtk.ListStore` is mutated in place). -/
def thenRow (st : Row × Option Err) (f : Row → Row × Option Err) :
    Row × Option Err :=
  match st with
  | (r, none) => f r
  | st => st

/-- The write loop `for key in kwargs: self._update_field(index, key, ...)`,
restricted to the row.  Stops at the first failing write, keeping earlier
writes (after validation a failure can only be a column-type mismatch). -/
def writeFields (r : Row) (kwargs : Kwargs) : Row × Option Err :=
  match kwargs with
  | [] => (r, none)
  | (k, v) :: rest =>
      match updateField r k v with
      | none => (r, some .typeError)
      | some r1 => writeFields r1 rest

/-- The `if "input_file" in kwargs:` block. -/
def cascadeInputFile (h : Helpers) (keys : List String) (r : Row) :
    Row × Option Err :=
  if keys.contains "input_file" then
    ({ r with input_file_display := inputFileDisplayOf h r }, none)
  else (r, none)

/-- The trigger set of the output-format block. -/
def formatTriggerKeys : List String :=
  ["output_format", "jpeg_quality", "webp_quality", "png_slow_optimization"]

/-- The Python key whose `IMAGES_FORMATS` lookup fails when
`outputFormatDisplayOf` is `none` (the literal `"jpeg"`/`"webp"`/`"png"` in
the first three branches, the row's format in the `else` branch). -/
def formatDisplayKey (r : Row) : String :=
  match r.output_format with
  | "jpeg" => "jpeg"
  | "webp" => "webp"
  | "png" => "png"
  | f => f

/-- The output-format block: triggered by a write of any of `output_format`,
`jpeg_quality`, `webp_quality`, `png_slow_optimization`.  It first builds
`_FORMATS_EXTS`, then writes `output_format_display`, then rewrites
`output_file` with the format's first extension via `Path.with_suffix`. -/
def cascadeFormat (h : Helpers) (fmts : FormatsTable) (keys : List String)
    (r : Row) : Row × Option Err :=
  if formatTriggerKeys.any (fun k => keys.contains k) then
    match buildFormatsExts fmts with
    | none => (r, some .indexError)
    | some exts =>
        match outputFormatDisplayOf fmts r with
        | none => (r, some (.keyError (formatDisplayKey r)))
        | some d =>
            let r1 := { r with output_format_display := d }
            match exts.lookup r1.output_format with
            | none => (r1, some (.keyError r1.output_format))
            | some ext =>
                ({ r1 with output_file := h.withSuffix r1.output_file ext },
                 none)
  else (r, none)

/-- The `if "output_file" in kwargs or "output_format" in kwargs:` block. -/
def cascadeOutputFileDisplay (h : Helpers) (keys : List String) (r : Row) :
    Row × Option Err :=
  if keys.contains "output_file" || keys.contains "output_format" then
    ({ r with output_file_display := outputFileDisplayOf h r }, none)
  else (r, none)

/-- The `if "input_size" in kwargs:` block. -/
def cascadeInputSize (h : Helpers) (keys : List String) (r : Row) :
    Row × Option Err :=
  if keys.contains "input_size" then
    ({ r with input_size_display := inputSizeDisplayOf h r }, none)
  else (r, none)

/-- The `if "output_size" in kwargs:` block; raises `ZeroDivisionError`
when `output_size > 0` and `input_size == 0`. -/
def cascadeOutputSize (h : Helpers) (keys : List String) (r : Row) :
    Row × Option Err :=
  if keys.contains "output_size" then
    match outputSizeDisplayOf h r with
    | none => (r, some .zeroDivisionError)
    | some s => ({ r with output_size_display := s }, none)
  else (r, none)

/-- The `if "status" in kwargs:` block; `KeyError` on a status outside the
`_STATUS` dict. -/
def cascadeStatus (h : Helpers) (keys : List String) (r : Row) :
    Row × Option Err :=
  if keys.contains "status" then
    match statusDisplayOf h r with
    | none => (r, some (.keyError (toString r.status)))
    | some s => ({ r with status_display := s }, none)
  else (r, none)

/-- The body of `ImageStore.update` after validation, restricted to the row
at `index`: the write loop followed by the six recomputation blocks in
source order. -/
def rowUpdate (h : Helpers) (fmts : FormatsTable) (kwargs : Kwargs)
    (r : Row) : Row × Option Err :=
  let keys := kwargs.map (fun kv => kv.1)
  thenRow (thenRow (thenRow (thenRow (thenRow (thenRow
    (writeFields r kwargs)
    (cascadeInputFile h keys))
    (cascadeFormat h fmts keys))
    (cascadeOutputFileDisplay h keys))
    (cascadeInputSize h keys))
    (cascadeOutputSize h keys))
    (cascadeStatus h keys)

namespace ImageStore

/-- `ImageStore.length`. -/
def length (store : Store) : Nat := store.length

/-- `ImageStore.get`: the row at `index` as a field dict (`none` models the
`IndexError` of `gtk_list_store[index]` out of range). -/
def get (store : Store) (index : Nat) : Option Row :=
  store.get? index

/-- `ImageStore.update`.  The validation loop runs first (`KeyError` before
anything is touched); with no kwargs no field is accessed at all, so a bad
index passes silently; otherwise the first `_update_field` raises
`IndexError` on a bad index, and on a good one the row update runs with
the store mutated in place. -/
def update (h : Helpers) (fmts : FormatsTable) (store : Store) (index : Nat)
    (kwargs : Kwargs) : Store × Option Err :=
  match validateKeys kwargs with
  | some k => (store, some (.keyError k))
  | none =>
      if kwargs.isEmpty then (store, none)
      else
        match store.get? index with
        | none => (store, some .indexError)
        | some r =>
            (store.set index (rowUpdate h fmts kwargs r).1,
             (rowUpdate h fmts kwargs r).2)

/-- `ImageStore.append`: validate, append a default row, then `update` the
fresh row (at the last index). -/
def append (h : Helpers) (fmts : FormatsTable) (store : Store)
    (kwargs : Kwargs) : Store × Option Err :=
  match validateKeys kwargs with
  | some k => (store, some (.keyError k))
  | none => update h fmts (store ++ [defaultRow]) store.length kwargs

/-- `ImageStore.clear`. -/
def clear (_store : Store) : Store := []

/-- `ImageStore.remove_at_index`: `get_iter` raises `ValueError` on a bad
index, re-raised as `IndexError`; on a good index the row is removed. -/
def remove_at_index (store : Store) (index : Nat) : Store × Option Err :=
  if index < store.length then (store.eraseIdx index, none)
  else (store, some .indexError)

end ImageStore

/-! ## The application controller (`application.py`) -/

/-- The externally observable state of a `concurrent.futures` future at the
moment the controller looks at it.  `cancelledF` is the state after a
successful `cancel()` of a not-yet-started future (such a future reports
`done()` as true and `running()` as false). -/
inductive FutStatus where
  | pendingF
  | runningF
  | doneF
  | cancelledF
  deriving DecidableEq

/-- `future.running()`. -/
def FutStatus.isRunning : FutStatus → Bool
  | .runningF => true
  | _ => false

/-- `future.done()` (true for finished and for cancelled futures). -/
def FutStatus.isDone : FutStatus → Bool
  | .doneF => true
  | .cancelledF => true
  | _ => false

/-- `future.cancel()`: only a not-yet-started future moves to cancelled. -/
def cancelFuture' (s : FutStatus) : FutStatus :=
  match s with
  | .pendingF => .cancelledF
  | s => s

/-- A value of the options dict passed to `yoga.image.optimize` (a string or
the number `jpeg_quality / 100`, which Python true-division makes a float,
modelled as a rational). -/
inductive OptVal where
  | oStr (s : String)
  | oNum (q : Rat)
  deriving DecidableEq

/-- One `executor.submit(yoga.image.optimize, input, output, options)` call:
its positional file arguments and its options dict in key order. -/
structure SubmittedCall where
  input_file : String
  output_file : String
  options : List (String × OptVal)
  deriving DecidableEq

/-- A future of `self._futures`, remembered together with the submitted call
it came from. -/
structure AppFuture where
  call : SubmittedCall
  status : FutStatus
  deriving DecidableEq

/-- `future.cancel()` applied to a tracked future. -/
def cancelFuture (f : AppFuture) : AppFuture :=
  { f with status := cancelFuture' f.status }

/-- The `concurrent.futures.ThreadPoolExecutor`: its `max_workers` argument
and whether `shutdown` has been called. -/
structure Executor where
  max_workers : Nat
  isShutdown : Bool
  deriving DecidableEq

/-- `YogaImageOptimizerApplication.STATE_MANAGE_IMAGES`. -/
def STATE_MANAGE_IMAGES : String := "manage"

/-- `YogaImageOptimizerApplication.STATE_OPTIMIZE`. -/
def STATE_OPTIMIZE : String := "optimize"

/-- The mutable attributes of `YogaImageOptimizerApplication` the claims are
about (`current_state` starts as `None`; the GUI window is out of scope). -/
structure App where
  current_state : Option String
  image_store : Store
  executor : Option Executor
  futures : List AppFuture
  deriving DecidableEq

/-- The options dict built inline in `optimize` for one row:
`{"output_format": row["output_format"].lower(),
  "jpeg_quality": row["jpeg_quality"] / 100}`. -/
def mkOptions (r : Row) : List (String × OptVal) :=
  [("output_format", .oStr r.output_format.toLower),
   ("jpeg_quality", .oNum ((r.jpeg_quality : Rat) / 100))]

/-- The submission for one row: `executor.submit(yoga.image.optimize,
row["input_file"], row["output_file"], {...})`. -/
def mkSubmission (r : Row) : SubmittedCall :=
  { input_file := r.input_file
    output_file := r.output_file
    options := mkOptions r }

/-- The submission loop `for row in self.image_store.get_all(): ...`
(`get_all` yields the rows in store order); row number `i` is submitted
with `sched` giving the status its fresh future has reached by the time it
is next observed (the thread scheduler is external to the program). -/
def submitAll (sched : Nat → FutStatus) (i : Nat) : List Row → List AppFuture
  | [] => []
  | r :: rest =>
      { call := mkSubmission r, status := sched i } :: submitAll sched (i + 1) rest

/-- The first part of `optimize` (lines 116–132): switch to the `optimize`
state, create a `ThreadPoolExecutor(max_workers=2)`, and submit one call per
row of `get_all()` in store order. -/
def optimizeSubmitted (sched : Nat → FutStatus) (app : App) : App :=
  { app with
    current_state := some STATE_OPTIMIZE
    executor := some { max_workers := 2, isShutdown := false }
    futures := submitAll sched 0 app.image_store }

/-- `stop_optimization`: a no-op outside the `optimize` state; otherwise
shut the executor down without waiting, call `cancel()` on every future,
and switch back to the `manage` state. -/
def stop_optimization (app : App) : App :=
  if app.current_state ≠ some STATE_OPTIMIZE then app
  else
    { app with
      executor := app.executor.map (fun e => { e with isShutdown := true })
      futures := app.futures.map cancelFuture
      current_state := some STATE_MANAGE_IMAGES }

/-- How `_update_optimization_status` returned: it found the app outside the
`optimize` state and did nothing; it re-armed itself via
`GLib.timeout_add_seconds(secs, ...)`; it ended the run by calling
`stop_optimization`; or a store update raised (`Err` escapes the callback). -/
inductive PollResult where
  | notOptimizing
  | rearmed (secs : Rat)
  | stopped
  | errored (e : Err)
  deriving DecidableEq

/-- The fixed re-arm interval passed to `GLib.timeout_add_seconds`. -/
def pollIntervalSeconds : Rat := 1 / 10

/-- One iteration of the polling loop, for future number `i`: write the
row's `status` (and `output_size`) according to the future's state, and
report whether this future was seen running. -/
def pollStep (h : Helpers) (fmts : FormatsTable) (store : Store) (i : Nat)
    (f : AppFuture) : Store × Bool × Option Err :=
  if f.status.isRunning then
    let p := ImageStore.update h fmts store i
      [("status", .vInt 2), ("output_size", .vInt 0)]
    (p.1, true, p.2)
  else if f.status.isDone then
    match ImageStore.get store i with
    | none => (store, false, some .indexError)
    | some row =>
        let p := ImageStore.update h fmts store i
          [("status", .vInt 3), ("output_size", .vInt (h.fileSize row.output_file))]
        (p.1, false, p.2)
  else
    let p := ImageStore.update h fmts store i
      [("status", .vInt 1), ("output_size", .vInt 0)]
    (p.1, false, p.2)

/-- The `for i in range(len(self._futures))` loop, carrying the store, the
next index and the `is_running` accumulator; an exception aborts the loop
with the writes so far applied. -/
def pollLoop (h : Helpers) (fmts : FormatsTable) (futs : List AppFuture)
    (i : Nat) (store : Store) (running : Bool) : Store × Bool × Option Err :=
  match futs with
  | [] => (store, running, none)
  | f :: rest =>
      match pollStep h fmts store i f with
      | (s1, r, some e) => (s1, running || r, some e)
      | (s1, r, none) => pollLoop h fmts rest (i + 1) s1 (running || r)

/-- `_update_optimization_status`: returns immediately outside the
`optimize` state; otherwise runs the loop over the futures and either
re-arms itself on the fixed timer (when some future was running) or calls
`stop_optimization`. -/
def updateOptimizationStatus (h : Helpers) (fmts : FormatsTable)
    (app : App) : App × PollResult :=
  if app.current_state ≠ some STATE_OPTIMIZE then (app, .notOptimizing)
  else
    match pollLoop h fmts app.futures 0 app.image_store false with
    | (s1, _, some e) => ({ app with image_store := s1 }, .errored e)
    | (s1, isRunning, none) =>
        if isRunning then
          ({ app with image_store := s1 }, .rearmed pollIntervalSeconds)
        else
          (stop_optimization { app with image_store := s1 }, .stopped)

/-- `optimize`: the submissions followed by the synchronous first call to
`_update_optimization_status` (line 134). -/
def optimize (h : Helpers) (fmts : FormatsTable) (sched : Nat → FutStatus)
    (app : App) : App × PollResult :=
  updateOptimizationStatus h fmts (optimizeSubmitted sched app)

/-! ## Sample instantiations of the external functions

These are used only to evaluate the model at concrete inputs (witnesses and
counterexamples); every general theorem is quantified over all of them. -/

/-- Modelled from the spec: `translation.format_string("%.1f", q)`
(`translation.py` is not in the snapshot) — one-decimal fixed-point
rendering of a rational, rounding half up in magnitude. -/
def fmtOneDecimal (q : Rat) : String :=
  let r : Int := Int.floor (|q| * 10 + 1 / 2)
  (if q < 0 then "-" else "")
    ++ toString (r / 10) ++ "." ++ toString (r % 10)

/-- Modelled from the spec: a sample instantiation of the external helpers
(`pathlib`, `os.path`, `helpers.human_readable_file_size`,
`translation`, `os.stat`), with simple but representative behaviour on
`/`-separated paths (written over the character lists of the strings so
that the model evaluates by plain structural recursion).  Used only for
concrete evaluations. -/
def defaultHelpers : Helpers where
  pathName := fun s =>
    String.mk ((s.data.reverse.takeWhile (fun c => c ≠ '/')).reverse)
  parentDir := fun s =>
    String.mk (((s.data.reverse.dropWhile (fun c => c ≠ '/')).drop 1).reverse)
  withSuffix := fun s ext =>
    if (s.data.reverse.takeWhile (fun c => c ≠ '/')).contains '.' then
      String.mk (((s.data.reverse.dropWhile (fun c => c ≠ '.')).drop 1).reverse)
        ++ ext
    else s ++ ext
  relpath := fun p start =>
    if p.data.take (start.data.length + 1) = start.data ++ ['/'] then
      String.mk (p.data.drop (start.data.length + 1))
    else p
  humanSize := fun n => toString n ++ " B"
  fmt1 := fmtOneDecimal
  tr := fun s => s
  fileSize := fun _ => 0

/-- Modelled from the spec: a sample `IMAGES_FORMATS` table
(`image_formats.py` is not in the snapshot) covering the three formats the
store special-cases. -/
def sampleFormats : FormatsTable :=
  [("jpeg", { display_name := "JPEG", exts := [".jpg", ".jpeg"] }),
   ("png", { display_name := "PNG", exts := [".png"] }),
   ("webp", { display_name := "WEBP", exts := [".webp"] })]

/-! ## Supporting lemmas -/

theorem submitAll_map_call (sched : Nat → FutStatus) (i : Nat)
    (rows : List Row) :
    (submitAll sched i rows).map (fun f => f.call) = rows.map mkSubmission := by
  induction rows generalizing i with
  | nil => rfl
  | cons r rest ih => simp [submitAll, ih]

theorem cancelFuture_call (f : AppFuture) : (cancelFuture f).call = f.call := rfl

theorem stop_optimization_futures_calls (app : App) :
    (stop_optimization app).futures.map (fun f => f.call)
      = app.futures.map (fun f => f.call) := by
  unfold stop_optimization
  split
  · rfl
  · simp [cancelFuture_call]

theorem stop_optimization_executor_workers (app : App) :
    (stop_optimization app).executor.map (fun e => e.max_workers)
      = app.executor.map (fun e => e.max_workers) := by
  unfold stop_optimization
  split
  · rfl
  · cases app.executor <;> rfl

theorem stop_optimization_image_store (app : App) :
    (stop_optimization app).image_store = app.image_store := by
  unfold stop_optimization
  split <;> rfl

theorem updateOptimizationStatus_futures_calls (h : Helpers)
    (fmts : FormatsTable) (app : App) :
    ((updateOptimizationStatus h fmts app).1).futures.map (fun f => f.call)
      = app.futures.map (fun f => f.call) := by
  unfold updateOptimizationStatus
  split
  · rfl
  · rcases hp : pollLoop h fmts app.futures 0 app.image_store false with ⟨s1, b1, e1⟩
    cases e1 with
    | some e => simp
    | none =>
        by_cases hb : b1 <;>
          simp [hb, stop_optimization_futures_calls
            { app with image_store := s1 }]

theorem updateOptimizationStatus_executor_workers (h : Helpers)
    (fmts : FormatsTable) (app : App) :
    ((updateOptimizationStatus h fmts app).1).executor.map (fun e => e.max_workers)
      = app.executor.map (fun e => e.max_workers) := by
  unfold updateOptimizationStatus
  split
  · rfl
  · rcases hp : pollLoop h fmts app.futures 0 app.image_store false with ⟨s1, b1, e1⟩
    cases e1 with
    | some e => simp
    | none =>
        by_cases hb : b1 <;>
          simp [hb, stop_optimization_executor_workers
            { app with image_store := s1 }]

/-! ## Concrete sample data (for witnesses and counterexamples) -/

/-- A PNG row with the slow-optimization mode switched on and a distinct
webp quality, to observe which settings `optimize` passes along. -/
def rowPngSlow : Row :=
  { defaultRow with
    input_file := "/img/a.png"
    output_file := "/img/a.opti.png"
    input_size := 100
    output_format := "PNG"
    webp_quality := 80
    png_slow_optimization := true }

/-- An application holding exactly `rowPngSlow`, in the `manage` state. -/
def appPngSlow : App :=
  { current_state := some STATE_MANAGE_IMAGES
    image_store := [rowPngSlow]
    executor := none
    futures := [] }

/-! ## Claims -/

/-- **C3.** For every store state, calling `optimize` submits exactly one
optimization call per row of the image store (the number of submitted
futures equals the store length), each call taking that row's `input_file`
and `output_file`, in store order.  Stated on the full `optimize` (the
trailing synchronous poll never adds, removes or replaces a submitted
call). -/
theorem C3_one_call_per_row (h : Helpers) (fmts : FormatsTable)
    (sched : Nat → FutStatus) (app : App) :
    (optimize h fmts sched app).1.futures.length = app.image_store.length ∧
    (optimize h fmts sched app).1.futures.map
        (fun f => (f.call.input_file, f.call.output_file))
      = app.image_store.map (fun r => (r.input_file, r.output_file)) := by
  have hcalls : (optimize h fmts sched app).1.futures.map (fun f => f.call)
      = app.image_store.map mkSubmission := by
    unfold optimize
    rw [updateOptimizationStatus_futures_calls]
    simpa using submitAll_map_call sched 0 app.image_store
  constructor
  · have := congrArg List.length hcalls
    simpa using this
  · have : (optimize h fmts sched app).1.futures.map
        ((fun c => (c.input_file, c.output_file)) ∘ (fun f => f.call))
        = (app.image_store.map mkSubmission).map
            (fun c => (c.input_file, c.output_file)) := by
      rw [← List.map_map, hcalls]
    simpa [mkSubmission, Function.comp] using this

/-- **C2, counterexample.** For the PNG row with `png_slow_optimization`
switched on (and a webp quality of 80), the options dict submitted by
`optimize` holds exactly the keys `output_format` and `jpeg_quality`: the
row's optimization mode (`png_slow_optimization`) and its `webp_quality`
are not passed to the optimizer, contradicting the claim that each call
carries the row's quality setting and optimization mode. -/
theorem C2_counterexample :
    (optimize defaultHelpers sampleFormats (fun _ => FutStatus.pendingF)
        appPngSlow).1.futures.map (fun f => f.call.options.map (fun kv => kv.1))
      = [["output_format", "jpeg_quality"]] ∧
    ¬ ("png_slow_optimization" ∈
        ((optimize defaultHelpers sampleFormats (fun _ => FutStatus.pendingF)
          appPngSlow).1.futures.map
            (fun f => f.call.options.map (fun kv => kv.1))).flatten) ∧
    ¬ ("webp_quality" ∈
        ((optimize defaultHelpers sampleFormats (fun _ => FutStatus.pendingF)
          appPngSlow).1.futures.map
            (fun f => f.call.options.map (fun kv => kv.1))).flatten) := by
  refine ⟨by decide, by decide, by decide⟩

/-- **C2, amended.** For every row, triggering batch optimization invokes
the external optimizer for that row with its `input_file` and `output_file`
and an options dict holding exactly the row's output format lower-cased and
the row's `jpeg_quality` divided by 100; the row's `webp_quality` and
`png_slow_optimization` settings are not part of the call. -/
theorem C2_options_passed (h : Helpers) (fmts : FormatsTable)
    (sched : Nat → FutStatus) (app : App) :
    (optimize h fmts sched app).1.futures.map (fun f => f.call)
      = app.image_store.map (fun r =>
          { input_file := r.input_file
            output_file := r.output_file
            options :=
              [("output_format", OptVal.oStr r.output_format.toLower),
               ("jpeg_quality", OptVal.oNum ((r.jpeg_quality : Rat) / 100))] }) := by
  unfold optimize
  rw [updateOptimizationStatus_futures_calls]
  simpa [mkSubmission, mkOptions] using submitAll_map_call sched 0 app.image_store

/-- **C6.** Every call to `optimize` creates a thread-pool executor with a
fixed worker count of 2, independent of the number of rows in the store
(the submission phase installs `ThreadPoolExecutor(max_workers=2)`, and the
trailing poll can at most shut it down, never change its worker count). -/
theorem C6_fixed_worker_count (h : Helpers) (fmts : FormatsTable)
    (sched : Nat → FutStatus) (app : App) :
    (optimizeSubmitted sched app).executor
        = some { max_workers := 2, isShutdown := false } ∧
    (optimize h fmts sched app).1.executor.map (fun e => e.max_workers)
        = some 2 := by
  refine ⟨rfl, ?_⟩
  unfold optimize
  rw [updateOptimizationStatus_executor_workers]
  rfl

/-- **C8.** For every call to `append` or `update` with any keyword argument
whose name is not a declared field, the operation raises `KeyError` naming
an invalid field, and the store is left completely unchanged (no row
appended, no field written): both methods run the whole validation loop
before any write. -/
theorem C8_invalid_field_rejected (h : Helpers) (fmts : FormatsTable)
    (store : Store) (index : Nat) (kwargs : Kwargs)
    (hbad : ∃ kv ∈ kwargs, ¬ FIELD_NAMES.contains kv.1) :
    ∃ k, k ∈ kwargs.map (fun kv => kv.1) ∧ ¬ FIELD_NAMES.contains k ∧
      ImageStore.append h fmts store kwargs = (store, some (Err.keyError k)) ∧
      ImageStore.update h fmts store index kwargs
        = (store, some (Err.keyError k)) := by
  rcases hfind : kwargs.find? (fun kv => !(FIELD_NAMES.contains kv.1)) with _ | kv
  · exfalso
    obtain ⟨kv, hmem, hk⟩ := hbad
    have := List.find?_eq_none.mp hfind kv hmem
    simp only [Bool.not_eq_true'] at this
    exact hk (by simpa using this)
  · refine ⟨kv.1, ?_, ?_, ?_, ?_⟩
    · exact List.mem_map.mpr ⟨kv, List.mem_of_find?_eq_some hfind, rfl⟩
    · have := List.find?_some hfind
      simpa using this
    · unfold ImageStore.append validateKeys
      rw [hfind]
      rfl
    · unfold ImageStore.update validateKeys
      rw [hfind]
      rfl

/-- **C8, witness.** Appending or updating with the unknown field `foo`
raises `KeyError` naming `foo` and leaves the empty store empty. -/
theorem C8_invalid_field_rejected_witness :
    ImageStore.append defaultHelpers sampleFormats []
        [("foo", Value.vStr "bar")] = ([], some (Err.keyError "foo")) ∧
    ImageStore.update defaultHelpers sampleFormats [] 0
        [("foo", Value.vStr "bar")] = ([], some (Err.keyError "foo")) := by
  obtain ⟨k, hk, _, ha, hu⟩ :=
    C8_invalid_field_rejected defaultHelpers sampleFormats [] 0
      [("foo", Value.vStr "bar")] ⟨("foo", Value.vStr "bar"), by decide, by decide⟩
  have hkf : k = "foo" := by simpa using hk
  subst hkf
  exact ⟨ha, hu⟩

/-- **C9.** For every row whose `input_size` is 0, calling `update` with a
positive `output_size` reaches the unguarded division
`output_size / input_size` (the guard only checks `output_size > 0`), so the
`ZeroDivisionError` branch is reachable at the public interface; the write
of `output_size` itself has already been applied when the division
raises. -/
theorem C9_division_by_zero_reachable (h : Helpers) (fmts : FormatsTable)
    (store : Store) (index : Nat) (r : Row) (v : Int)
    (hrow : store.get? index = some r) (h0 : r.input_size = 0) (hv : 0 < v) :
    ImageStore.update h fmts store index [("output_size", Value.vInt v)]
      = (store.set index { r with output_size := v },
         some Err.zeroDivisionError) := by
  have hrun : rowUpdate h fmts [("output_size", Value.vInt v)] r
      = ({ r with output_size := v }, some Err.zeroDivisionError) := by
    have hw : writeFields r [("output_size", Value.vInt v)]
        = ({ r with output_size := v }, none) := rfl
    have hc5 : cascadeOutputSize h ["output_size"] { r with output_size := v }
        = ({ r with output_size := v }, some Err.zeroDivisionError) := by
      unfold cascadeOutputSize
      rw [if_pos (by decide)]
      have hd : outputSizeDisplayOf h { r with output_size := v } = none := by
        unfold outputSizeDisplayOf
        rw [if_pos (by exact hv), if_pos (by exact h0)]
      rw [hd]
    unfold rowUpdate
    simp only [List.map_cons, List.map_nil, hw, thenRow]
    rw [show cascadeInputFile h ["output_size"] { r with output_size := v }
        = ({ r with output_size := v }, none) by
      unfold cascadeInputFile; rw [if_neg (by decide)]]
    simp only [thenRow]
    rw [show cascadeFormat h fmts ["output_size"] { r with output_size := v }
        = ({ r with output_size := v }, none) by
      unfold cascadeFormat; rw [if_neg (by decide)]]
    simp only [thenRow]
    rw [show cascadeOutputFileDisplay h ["output_size"] { r with output_size := v }
        = ({ r with output_size := v }, none) by
      unfold cascadeOutputFileDisplay; rw [if_neg (by decide)]]
    simp only [thenRow]
    rw [show cascadeInputSize h ["output_size"] { r with output_size := v }
        = ({ r with output_size := v }, none) by
      unfold cascadeInputSize; rw [if_neg (by decide)]]
    simp only [thenRow]
    rw [hc5]
  unfold ImageStore.update
  have hval : validateKeys [("output_size", Value.vInt v)] = none := rfl
  rw [hval, if_neg (by simp), hrow]
  dsimp only
  rw [hrun]

/-- **C9, witness.** Updating the default row (whose `input_size` is 0) with
`output_size = 5` raises `ZeroDivisionError`. -/
theorem C9_division_by_zero_reachable_witness :
    ImageStore.update defaultHelpers sampleFormats [defaultRow] 0
        [("output_size", Value.vInt 5)]
      = ([defaultRow].set 0 { defaultRow with output_size := 5 },
         some Err.zeroDivisionError) :=
  C9_division_by_zero_reachable defaultHelpers sampleFormats [defaultRow] 0
    defaultRow 5 rfl rfl (by decide)

/-- **C10, counterexample.** `update` called on an out-of-range index with
no keyword argument does not raise `IndexError`: the validation loop sees no
keys, no field is ever read or written, and the call returns silently — the
claim that `update(index, ...)` always raises `IndexError` on an
out-of-range index fails for the empty keyword set. -/
theorem C10_counterexample :
    (ImageStore.update defaultHelpers sampleFormats [] 5 []).2
        ≠ some Err.indexError ∧
    ImageStore.update defaultHelpers sampleFormats [] 5 [] = ([], none) := by
  refine ⟨by decide, by decide⟩

/-- **C10, amended.** For every index out of the store's range, `get` raises
`IndexError` (modelled as `none`), `remove_at_index` raises `IndexError`
(translating the underlying `ValueError`), and `update` raises `IndexError`
provided it writes at least one (validly named) field; all three leave the
store's rows unchanged.  (`update` with no keyword arguments is a silent
no-op instead, and an invalidly named field raises `KeyError` before the
index is ever consulted.) -/
theorem C10_out_of_range (h : Helpers) (fmts : FormatsTable) (store : Store)
    (index : Nat) (kwargs : Kwargs) (hidx : store.length ≤ index)
    (hvalid : ∀ kv ∈ kwargs, FIELD_NAMES.contains kv.1)
    (hne : kwargs ≠ []) :
    ImageStore.get store index = none ∧
    ImageStore.remove_at_index store index = (store, some Err.indexError) ∧
    ImageStore.update h fmts store index kwargs
      = (store, some Err.indexError) := by
  refine ⟨?_, ?_, ?_⟩
  · exact List.get?_eq_none.mpr hidx
  · unfold ImageStore.remove_at_index
    rw [if_neg (by omega)]
  · unfold ImageStore.update
    have hval : validateKeys kwargs = none := by
      unfold validateKeys
      rw [List.find?_eq_none.mpr]
      · rfl
      · intro kv hm
        simpa using hvalid kv hm
    rw [hval]
    rw [if_neg (by simpa [List.isEmpty_iff] using hne)]
    rw [List.get?_eq_none.mpr hidx]

/-- **C10, witness.** On the empty store, index 0 is out of range: `get`
returns the `IndexError` marker, `remove_at_index` raises `IndexError`, and
`update` writing the `status` field raises `IndexError`, the store staying
empty. -/
theorem C10_out_of_range_witness :
    ImageStore.get [] 0 = none ∧
    ImageStore.remove_at_index [] 0 = ([], some Err.indexError) ∧
    ImageStore.update defaultHelpers sampleFormats [] 0
        [("status", Value.vInt 1)] = ([], some Err.indexError) :=
  C10_out_of_range defaultHelpers sampleFormats [] 0
    [("status", Value.vInt 1)] (by decide) (by decide) (by decide)

/-- **C4.** `stop_optimization` in the `optimize` state shuts the executor
down, calls `cancel()` on every submitted future, and switches back to
`manage`; outside the `optimize` state it changes nothing; and neither
`stop_optimization` nor the polling callback ever retries or resubmits a
task (the list of submitted calls is preserved exactly). -/
theorem C4_stop_optimization (app : App) :
    (app.current_state = some STATE_OPTIMIZE →
      stop_optimization app =
        { app with
          executor := app.executor.map (fun e => { e with isShutdown := true })
          futures := app.futures.map cancelFuture
          current_state := some STATE_MANAGE_IMAGES }) ∧
    (app.current_state ≠ some STATE_OPTIMIZE → stop_optimization app = app) ∧
    ((stop_optimization app).futures.map (fun f => f.call)
        = app.futures.map (fun f => f.call)) ∧
    ((stop_optimization app).futures.length = app.futures.length) ∧
    (∀ (h : Helpers) (fmts : FormatsTable),
      ((updateOptimizationStatus h fmts app).1).futures.map (fun f => f.call)
          = app.futures.map (fun f => f.call) ∧
      ((updateOptimizationStatus h fmts app).1).futures.length
          = app.futures.length) := by
  refine ⟨?_, ?_, stop_optimization_futures_calls app, ?_, ?_⟩
  · intro hs
    unfold stop_optimization
    rw [if_neg (by simp [hs])]
  · intro hs
    unfold stop_optimization
    rw [if_pos hs]
  · have := congrArg List.length (stop_optimization_futures_calls app)
    simpa using this
  · intro h fmts
    refine ⟨updateOptimizationStatus_futures_calls h fmts app, ?_⟩
    have := congrArg List.length
      (updateOptimizationStatus_futures_calls h fmts app)
    simpa using this

/-- A sample application sitting in the `optimize` state with one pending
future. -/
def appOptimizing : App :=
  { current_state := some STATE_OPTIMIZE
    image_store := [rowPngSlow]
    executor := some { max_workers := 2, isShutdown := false }
    futures := [{ call := mkSubmission rowPngSlow, status := FutStatus.pendingF }] }

/-- **C4, witness.** On the sample optimizing application,
`stop_optimization` cancels the pending future, marks the executor shut
down, and returns to the `manage` state; on the sample managing application
it is the identity. -/
theorem C4_stop_optimization_witness :
    stop_optimization appOptimizing =
      { current_state := some STATE_MANAGE_IMAGES
        image_store := [rowPngSlow]
        executor := some { max_workers := 2, isShutdown := true }
        futures := [{ call := mkSubmission rowPngSlow,
                      status := FutStatus.cancelledF }] } ∧
    stop_optimization appPngSlow = appPngSlow := by
  constructor
  · have hstop := (C4_stop_optimization appOptimizing).1 rfl
    rw [hstop]
    rfl
  · exact (C4_stop_optimization appPngSlow).2.1 (by decide)

/-! ## Decomposing the recomputation cascade -/

theorem thenRow_none (st : Row × Option Err) (f : Row → Row × Option Err)
    (r' : Row) (hc : thenRow st f = (r', none)) :
    ∃ rm, st = (rm, none) ∧ f rm = (r', none) := by
  rcases st with ⟨r0, e0⟩
  cases e0 with
  | none => exact ⟨r0, rfl, hc⟩
  | some e => simp [thenRow] at hc

theorem cascadeInputFile_success (h : Helpers) (keys : List String)
    (r r' : Row) (hc : cascadeInputFile h keys r = (r', none)) :
    r'.input_file = r.input_file ∧ r'.output_file = r.output_file ∧
    r'.output_file_display = r.output_file_display ∧
    r'.input_size = r.input_size ∧ r'.output_size = r.output_size ∧
    r'.input_size_display = r.input_size_display ∧
    r'.output_size_display = r.output_size_display ∧
    r'.output_format = r.output_format ∧
    r'.output_format_display = r.output_format_display ∧
    r'.status = r.status ∧ r'.status_display = r.status_display ∧
    r'.jpeg_quality = r.jpeg_quality ∧ r'.webp_quality = r.webp_quality ∧
    r'.png_slow_optimization = r.png_slow_optimization ∧
    (keys.contains "input_file" = false → r' = r) ∧
    (keys.contains "input_file" = true →
      r'.input_file_display = inputFileDisplayOf h r) := by
  unfold cascadeInputFile at hc
  by_cases ht : keys.contains "input_file"
  · rw [if_pos ht] at hc
    injection hc with h1 _
    subst h1
    refine ⟨rfl, rfl, rfl, rfl, rfl, rfl, rfl, rfl, rfl, rfl, rfl, rfl, rfl,
      rfl, ?_, ?_⟩
    · intro hfalse; rw [ht] at hfalse; cases hfalse
    · intro _; rfl
  · rw [if_neg ht] at hc
    injection hc with h1 _
    subst h1
    refine ⟨rfl, rfl, rfl, rfl, rfl, rfl, rfl, rfl, rfl, rfl, rfl, rfl, rfl,
      rfl, ?_, ?_⟩
    · intro _; rfl
    · intro htrue; exact absurd htrue ht

theorem cascadeFormat_success (h : Helpers) (fmts : FormatsTable)
    (keys : List String) (r r' : Row)
    (hc : cascadeFormat h fmts keys r = (r', none)) :
    r'.input_file = r.input_file ∧
    r'.input_file_display = r.input_file_display ∧
    r'.output_file_display = r.output_file_display ∧
    r'.input_size = r.input_size ∧ r'.output_size = r.output_size ∧
    r'.input_size_display = r.input_size_display ∧
    r'.output_size_display = r.output_size_display ∧
    r'.output_format = r.output_format ∧
    r'.status = r.status ∧ r'.status_display = r.status_display ∧
    r'.jpeg_quality = r.jpeg_quality ∧ r'.webp_quality = r.webp_quality ∧
    r'.png_slow_optimization = r.png_slow_optimization ∧
    (formatTriggerKeys.any (fun k => keys.contains k) = false → r' = r) ∧
    (formatTriggerKeys.any (fun k => keys.contains k) = true →
      outputFormatDisplayOf fmts r = some r'.output_format_display ∧
      ∃ exts ext, buildFormatsExts fmts = some exts ∧
        exts.lookup r.output_format = some ext ∧
        r'.output_file = h.withSuffix r.output_file ext) := by
  unfold cascadeFormat at hc
  by_cases ht : formatTriggerKeys.any (fun k => keys.contains k)
  · rw [if_pos ht] at hc
    rcases hbe : buildFormatsExts fmts with _ | exts
    · rw [hbe] at hc; simp at hc
    · rw [hbe] at hc
      rcases hd : outputFormatDisplayOf fmts r with _ | d
      · rw [hd] at hc; simp at hc
      · rw [hd] at hc
        dsimp only at hc
        rcases hlk : exts.lookup r.output_format with _ | ext
        · rw [show ({ r with output_format_display := d } : Row).output_format
              = r.output_format from rfl, hlk] at hc
          simp at hc
        · rw [show ({ r with output_format_display := d } : Row).output_format
              = r.output_format from rfl, hlk] at hc
          injection hc with h1 _
          subst h1
          refine ⟨rfl, rfl, rfl, rfl, rfl, rfl, rfl, rfl, rfl, rfl, rfl, rfl,
            rfl, ?_, ?_⟩
          · intro hfalse; rw [ht] at hfalse; cases hfalse
          · intro _
            exact ⟨rfl, exts, ext, rfl, hlk, rfl⟩
  · rw [if_neg ht] at hc
    injection hc with h1 _
    subst h1
    refine ⟨rfl, rfl, rfl, rfl, rfl, rfl, rfl, rfl, rfl, rfl, rfl, rfl, rfl,
      ?_, ?_⟩
    · intro _; rfl
    · intro htrue; exact absurd htrue ht

theorem cascadeOutputFileDisplay_success (h : Helpers) (keys : List String)
    (r r' : Row) (hc : cascadeOutputFileDisplay h keys r = (r', none)) :
    r'.input_file = r.input_file ∧
    r'.input_file_display = r.input_file_display ∧
    r'.output_file = r.output_file ∧
    r'.input_size = r.input_size ∧ r'.output_size = r.output_size ∧
    r'.input_size_display = r.input_size_display ∧
    r'.output_size_display = r.output_size_display ∧
    r'.output_format = r.output_format ∧
    r'.output_format_display = r.output_format_display ∧
    r'.status = r.status ∧ r'.status_display = r.status_display ∧
    r'.jpeg_quality = r.jpeg_quality ∧ r'.webp_quality = r.webp_quality ∧
    r'.png_slow_optimization = r.png_slow_optimization ∧
    ((keys.contains "output_file" || keys.contains "output_format") = false
        → r' = r) ∧
    ((keys.contains "output_file" || keys.contains "output_format") = true
        → r'.output_file_display = outputFileDisplayOf h r) := by
  unfold cascadeOutputFileDisplay at hc
  by_cases ht : keys.contains "output_file" || keys.contains "output_format"
  · rw [if_pos ht] at hc
    injection hc with h1 _
    subst h1
    refine ⟨rfl, rfl, rfl, rfl, rfl, rfl, rfl, rfl, rfl, rfl, rfl, rfl, rfl,
      rfl, ?_, ?_⟩
    · intro hfalse; rw [ht] at hfalse; cases hfalse
    · intro _; rfl
  · rw [if_neg ht] at hc
    injection hc with h1 _
    subst h1
    refine ⟨rfl, rfl, rfl, rfl, rfl, rfl, rfl, rfl, rfl, rfl, rfl, rfl, rfl,
      rfl, ?_, ?_⟩
    · intro _; rfl
    · intro htrue; exact absurd htrue ht

theorem cascadeInputSize_success (h : Helpers) (keys : List String)
    (r r' : Row) (hc : cascadeInputSize h keys r = (r', none)) :
    r'.input_file = r.input_file ∧
    r'.input_file_display = r.input_file_display ∧
    r'.output_file = r.output_file ∧
    r'.output_file_display = r.output_file_display ∧
    r'.input_size = r.input_size ∧ r'.output_size = r.output_size ∧
    r'.output_size_display = r.output_size_display ∧
    r'.output_format = r.output_format ∧
    r'.output_format_display = r.output_format_display ∧
    r'.status = r.status ∧ r'.status_display = r.status_display ∧
    r'.jpeg_quality = r.jpeg_quality ∧ r'.webp_quality = r.webp_quality ∧
    r'.png_slow_optimization = r.png_slow_optimization ∧
    (keys.contains "input_size" = false → r' = r) ∧
    (keys.contains "input_size" = true →
      r'.input_size_display = inputSizeDisplayOf h r) := by
  unfold cascadeInputSize at hc
  by_cases ht : keys.contains "input_size"
  · rw [if_pos ht] at hc
    injection hc with h1 _
    subst h1
    refine ⟨rfl, rfl, rfl, rfl, rfl, rfl, rfl, rfl, rfl, rfl, rfl, rfl, rfl,
      rfl, ?_, ?_⟩
    · intro hfalse; rw [ht] at hfalse; cases hfalse
    · intro _; rfl
  · rw [if_neg ht] at hc
    injection hc with h1 _
    subst h1
    refine ⟨rfl, rfl, rfl, rfl, rfl, rfl, rfl, rfl, rfl, rfl, rfl, rfl, rfl,
      rfl, ?_, ?_⟩
    · intro _; rfl
    · intro htrue; exact absurd htrue ht

theorem cascadeOutputSize_success (h : Helpers) (keys : List String)
    (r r' : Row) (hc : cascadeOutputSize h keys r = (r', none)) :
    r'.input_file = r.input_file ∧
    r'.input_file_display = r.input_file_display ∧
    r'.output_file = r.output_file ∧
    r'.output_file_display = r.output_file_display ∧
    r'.input_size = r.input_size ∧ r'.output_size = r.output_size ∧
    r'.input_size_display = r.input_size_display ∧
    r'.output_format = r.output_format ∧
    r'.output_format_display = r.output_format_display ∧
    r'.status = r.status ∧ r'.status_display = r.status_display ∧
    r'.jpeg_quality = r.jpeg_quality ∧ r'.webp_quality = r.webp_quality ∧
    r'.png_slow_optimization = r.png_slow_optimization ∧
    (keys.contains "output_size" = false → r' = r) ∧
    (keys.contains "output_size" = true →
      outputSizeDisplayOf h r = some r'.output_size_display) := by
  unfold cascadeOutputSize at hc
  by_cases ht : keys.contains "output_size"
  · rw [if_pos ht] at hc
    rcases hd : outputSizeDisplayOf h r with _ | s
    · rw [hd] at hc; simp at hc
    · rw [hd] at hc
      injection hc with h1 _
      subst h1
      refine ⟨rfl, rfl, rfl, rfl, rfl, rfl, rfl, rfl, rfl, rfl, rfl, rfl,
        rfl, rfl, ?_, ?_⟩
      · intro hfalse; rw [ht] at hfalse; cases hfalse
      · intro _
        exact rfl
  · rw [if_neg ht] at hc
    injection hc with h1 _
    subst h1
    refine ⟨rfl, rfl, rfl, rfl, rfl, rfl, rfl, rfl, rfl, rfl, rfl, rfl, rfl,
      rfl, ?_, ?_⟩
    · intro _; rfl
    · intro htrue; exact absurd htrue ht

theorem cascadeStatus_success (h : Helpers) (keys : List String)
    (r r' : Row) (hc : cascadeStatus h keys r = (r', none)) :
    r'.input_file = r.input_file ∧
    r'.input_file_display = r.input_file_display ∧
    r'.output_file = r.output_file ∧
    r'.output_file_display = r.output_file_display ∧
    r'.input_size = r.input_size ∧ r'.output_size = r.output_size ∧
    r'.input_size_display = r.input_size_display ∧
    r'.output_size_display = r.output_size_display ∧
    r'.output_format = r.output_format ∧
    r'.output_format_display = r.output_format_display ∧
    r'.status = r.status ∧
    r'.jpeg_quality = r.jpeg_quality ∧ r'.webp_quality = r.webp_quality ∧
    r'.png_slow_optimization = r.png_slow_optimization ∧
    (keys.contains "status" = false → r' = r) ∧
    (keys.contains "status" = true →
      statusDisplayOf h r = some r'.status_display) := by
  unfold cascadeStatus at hc
  by_cases ht : keys.contains "status"
  · rw [if_pos ht] at hc
    rcases hd : statusDisplayOf h r with _ | s
    · rw [hd] at hc; simp at hc
    · rw [hd] at hc
      injection hc with h1 _
      subst h1
      refine ⟨rfl, rfl, rfl, rfl, rfl, rfl, rfl, rfl, rfl, rfl, rfl, rfl,
        rfl, rfl, ?_, ?_⟩
      · intro hfalse; rw [ht] at hfalse; cases hfalse
      · intro _
        exact rfl
  · rw [if_neg ht] at hc
    injection hc with h1 _
    subst h1
    refine ⟨rfl, rfl, rfl, rfl, rfl, rfl, rfl, rfl, rfl, rfl, rfl, rfl, rfl,
      rfl, ?_, ?_⟩
    · intro _; rfl
    · intro htrue; exact absurd htrue ht

/-! ## The derived-field consistency property -/

/-- The derived fields whose trigger appears among the written keys agree
with their defining formulas on the resulting row. -/
def derivedConsistent (h : Helpers) (fmts : FormatsTable)
    (keys : List String) (r : Row) : Prop :=
  (keys.contains "input_file" = true →
      r.input_file_display = inputFileDisplayOf h r) ∧
  (formatTriggerKeys.any (fun k => keys.contains k) = true →
      outputFormatDisplayOf fmts r = some r.output_format_display) ∧
  ((keys.contains "output_file" || keys.contains "output_format") = true →
      r.output_file_display = outputFileDisplayOf h r) ∧
  (keys.contains "input_size" = true →
      r.input_size_display = inputSizeDisplayOf h r) ∧
  (keys.contains "output_size" = true →
      outputSizeDisplayOf h r = some r.output_size_display) ∧
  (keys.contains "status" = true →
      statusDisplayOf h r = some r.status_display)

theorem inputFileDisplayOf_congr (h : Helpers) (a b : Row)
    (h1 : a.input_file = b.input_file) :
    inputFileDisplayOf h a = inputFileDisplayOf h b := by
  unfold inputFileDisplayOf; rw [h1]

theorem outputFileDisplayOf_congr (h : Helpers) (a b : Row)
    (h1 : a.output_file = b.output_file) (h2 : a.input_file = b.input_file) :
    outputFileDisplayOf h a = outputFileDisplayOf h b := by
  unfold outputFileDisplayOf; rw [h1, h2]

theorem inputSizeDisplayOf_congr (h : Helpers) (a b : Row)
    (h1 : a.input_size = b.input_size) :
    inputSizeDisplayOf h a = inputSizeDisplayOf h b := by
  unfold inputSizeDisplayOf; rw [h1]

theorem outputSizeDisplayOf_congr (h : Helpers) (a b : Row)
    (h1 : a.input_size = b.input_size) (h2 : a.output_size = b.output_size) :
    outputSizeDisplayOf h a = outputSizeDisplayOf h b := by
  unfold outputSizeDisplayOf; rw [h1, h2]

theorem outputFormatDisplayOf_congr (fmts : FormatsTable) (a b : Row)
    (h1 : a.output_format = b.output_format)
    (h2 : a.jpeg_quality = b.jpeg_quality)
    (h3 : a.webp_quality = b.webp_quality)
    (h4 : a.png_slow_optimization = b.png_slow_optimization) :
    outputFormatDisplayOf fmts a = outputFormatDisplayOf fmts b := by
  unfold outputFormatDisplayOf; rw [h1, h2, h3, h4]

theorem statusDisplayOf_congr (h : Helpers) (a b : Row)
    (h1 : a.status = b.status) :
    statusDisplayOf h a = statusDisplayOf h b := by
  unfold statusDisplayOf; rw [h1]

theorem cascadeChain_derived (h : Helpers) (fmts : FormatsTable)
    (keys : List String) (st : Row × Option Err) (r1 : Row)
    (hr : thenRow (thenRow (thenRow (thenRow (thenRow (thenRow st
        (cascadeInputFile h keys)) (cascadeFormat h fmts keys))
        (cascadeOutputFileDisplay h keys)) (cascadeInputSize h keys))
        (cascadeOutputSize h keys)) (cascadeStatus h keys) = (r1, none)) :
    derivedConsistent h fmts keys r1 := by
  obtain ⟨rE, hhE, hc6⟩ := thenRow_none _ _ _ hr
  obtain ⟨rD, hhD, hc5⟩ := thenRow_none _ _ _ hhE
  obtain ⟨rC, hhC, hc4⟩ := thenRow_none _ _ _ hhD
  obtain ⟨rB, hhB, hc3⟩ := thenRow_none _ _ _ hhC
  obtain ⟨rA, hhA, hc2⟩ := thenRow_none _ _ _ hhB
  obtain ⟨r0, -, hc1⟩ := thenRow_none _ _ _ hhA
  obtain ⟨A1, A2, A3, A4, A5, A6, A7, A8, A9, A10, A11, A12, A13, A14, A15, A16⟩ :=
    cascadeInputFile_success h keys r0 rA hc1
  obtain ⟨B1, B2, B3, B4, B5, B6, B7, B8, B9, B10, B11, B12, B13, B14, B15⟩ :=
    cascadeFormat_success h fmts keys rA rB hc2
  obtain ⟨C1, C2, C3, C4, C5, C6, C7, C8, C9, C10, C11, C12, C13, C14, C15, C16⟩ :=
    cascadeOutputFileDisplay_success h keys rB rC hc3
  obtain ⟨D1, D2, D3, D4, D5, D6, D7, D8, D9, D10, D11, D12, D13, D14, D15, D16⟩ :=
    cascadeInputSize_success h keys rC rD hc4
  obtain ⟨E1, E2, E3, E4, E5, E6, E7, E8, E9, E10, E11, E12, E13, E14, E15, E16⟩ :=
    cascadeOutputSize_success h keys rD rE hc5
  obtain ⟨F1, F2, F3, F4, F5, F6, F7, F8, F9, F10, F11, F12, F13, F14, F15, F16⟩ :=
    cascadeStatus_success h keys rE r1 hc6
  refine ⟨?_, ?_, ?_, ?_, ?_, ?_⟩
  · intro ht
    have hif : r1.input_file = r0.input_file := by rw [F1, E1, D1, C1, B1, A1]
    calc r1.input_file_display = rA.input_file_display := by
          rw [F2, E2, D2, C2, B2]
      _ = inputFileDisplayOf h r0 := A16 ht
      _ = inputFileDisplayOf h r1 := (inputFileDisplayOf_congr h r1 r0 hif).symm
  · intro ht
    obtain ⟨hdisp, -⟩ := B15 ht
    have hcongr : outputFormatDisplayOf fmts r1 = outputFormatDisplayOf fmts rA :=
      outputFormatDisplayOf_congr fmts r1 rA
        (by rw [F9, E8, D8, C8, B8]) (by rw [F12, E12, D12, C12, B11])
        (by rw [F13, E13, D13, C13, B12]) (by rw [F14, E14, D14, C14, B13])
    rw [hcongr, hdisp, show r1.output_format_display = rB.output_format_display
      from by rw [F10, E9, D9, C9]]
  · intro ht
    have hofd : r1.output_file_display = rC.output_file_display := by
      rw [F4, E4, D4]
    rw [hofd, C16 ht]
    exact (outputFileDisplayOf_congr h r1 rB
      (by rw [F3, E3, D3, C3]) (by rw [F1, E1, D1, C1])).symm
  · intro ht
    have hisd : r1.input_size_display = rD.input_size_display := by
      rw [F7, E7]
    rw [hisd, D16 ht]
    exact (inputSizeDisplayOf_congr h r1 rC (by rw [F5, E5, D5])).symm
  · intro ht
    have hcongr : outputSizeDisplayOf h r1 = outputSizeDisplayOf h rD :=
      outputSizeDisplayOf_congr h r1 rD (by rw [F5, E5]) (by rw [F6, E6])
    rw [hcongr, E16 ht, show r1.output_size_display = rE.output_size_display
      from F8]
  · intro ht
    have hcongr : statusDisplayOf h r1 = statusDisplayOf h rE :=
      statusDisplayOf_congr h r1 rE F11
    rw [hcongr, F16 ht]

theorem rowUpdate_derived (h : Helpers) (fmts : FormatsTable)
    (kwargs : Kwargs) (r r1 : Row)
    (hr : rowUpdate h fmts kwargs r = (r1, none)) :
    derivedConsistent h fmts (kwargs.map (fun kv => kv.1)) r1 := by
  unfold rowUpdate at hr
  exact cascadeChain_derived h fmts (kwargs.map (fun kv => kv.1))
    (writeFields r kwargs) r1 hr

theorem update_derived (h : Helpers) (fmts : FormatsTable) (store : Store)
    (index : Nat) (kwargs : Kwargs) (s' : Store) (r' : Row)
    (hu : ImageStore.update h fmts store index kwargs = (s', none))
    (hr' : s'.get? index = some r') :
    derivedConsistent h fmts (kwargs.map (fun kv => kv.1)) r' := by
  unfold ImageStore.update at hu
  rcases hvk : validateKeys kwargs with _ | k
  · rw [hvk] at hu
    dsimp only at hu
    by_cases he : kwargs.isEmpty
    · have hknil : kwargs = [] := List.isEmpty_iff.mp he
    
      subst hknil
      refine ⟨?_, ?_, ?_, ?_, ?_, ?_⟩ <;> intro ht <;> cases ht
    · rw [if_neg he] at hu
      rcases hg : store.get? index with _ | r
      · rw [hg] at hu
        injection hu with _ h2
        cases h2
      · rw [hg] at hu
        dsimp only at hu
        rcases hru : rowUpdate h fmts kwargs r with ⟨rr, ee⟩
        rw [hru] at hu
        injection hu with h1 h2
        subst h1
        have hee : ee = none := h2
        subst hee
        have hi : index < store.length := by
          by_contra hge
          rw [List.get?_eq_none.mpr (by omega)] at hg
          cases hg
        have hset : (store.set index rr).get? index = some rr := by
          simp [List.get?_eq_getElem?, List.getElem?_set_eq_of_lt rr hi]
        rw [hset] at hr'
        injection hr' with h3
        subst h3
        exact rowUpdate_derived h fmts kwargs r rr hru
  · rw [hvk] at hu
    injection hu with _ h2
    cases h2

/-- The first mutation of the C1 scenario: a fresh row appended with an
input and an output file (both derived path displays get computed). -/
def c1Step1 : Store × Option Err :=
  ImageStore.append defaultHelpers sampleFormats []
    [("input_file", Value.vStr "/img/a.png"),
     ("output_file", Value.vStr "/img/b.png")]

/-- The second mutation of the C1 scenario: only `input_file` is written.
The `output_file_display` block is not triggered (its triggers are
`output_file` and `output_format`), although its formula reads the input
file's directory. -/
def c1Step2 : Store × Option Err :=
  ImageStore.update defaultHelpers sampleFormats c1Step1.1 0
    [("input_file", Value.vStr "/other/c.png")]

/-- **C1, counterexample.** After appending a row with input
`/img/a.png` and output `/img/b.png` and then updating only `input_file`
to `/other/c.png`, both mutations succeed but the stored
`output_file_display` is still `b.png` (relative to the old `/img`
directory), while the pure output-file-display function of the row's base
fields yields `/img/b.png` (relative to the new `/other` directory): a
mutation can leave a derived field stale with respect to the base fields
it is derived from, refuting the claim. -/
theorem C1_counterexample :
    c1Step1.2 = none ∧ c1Step2.2 = none ∧
    (c1Step2.1.get? 0).map (fun r => r.output_file_display) = some "b.png" ∧
    (c1Step2.1.get? 0).map (fun r => outputFileDisplayOf defaultHelpers r)
      = some "/img/b.png" ∧
    ¬ ((c1Step2.1.get? 0).map (fun r => r.output_file_display)
        = (c1Step2.1.get? 0).map (fun r => outputFileDisplayOf defaultHelpers r)) := by
  refine ⟨by decide, by decide, by decide, by decide, by decide⟩

/-- **C1, amended.** For every row and every `append`/`update`, each
derived display field whose trigger fields intersect the written keyword
set equals the specified pure function of the row's base fields after the
mutation (`input_file_display` on a write of `input_file`;
`output_format_display` on a write of `output_format`/`jpeg_quality`/
`webp_quality`/`png_slow_optimization`; `output_file_display` on a write of
`output_file` or `output_format`; `input_size_display` on `input_size`;
`output_size_display` on `output_size`; `status_display` on `status`).  A
mutation that writes only a non-trigger dependency (such as `input_file`
for `output_file_display`, or `input_size` for `output_size_display`) can
leave that derived field stale. -/
theorem C1_derived_recomputed_on_trigger (h : Helpers) (fmts : FormatsTable) :
    (∀ (store : Store) (index : Nat) (kwargs : Kwargs) (s' : Store) (r' : Row),
      ImageStore.update h fmts store index kwargs = (s', none) →
      s'.get? index = some r' →
      derivedConsistent h fmts (kwargs.map (fun kv => kv.1)) r') ∧
    (∀ (store : Store) (kwargs : Kwargs) (s' : Store) (r' : Row),
      ImageStore.append h fmts store kwargs = (s', none) →
      s'.get? store.length = some r' →
      derivedConsistent h fmts (kwargs.map (fun kv => kv.1)) r') := by
  constructor
  · intro store index kwargs s' r' hu hr'
    exact update_derived h fmts store index kwargs s' r' hu hr'
  · intro store kwargs s' r' ha hr'
    unfold ImageStore.append at ha
    rcases hvk : validateKeys kwargs with _ | k
    · rw [hvk] at ha
      exact update_derived h fmts (store ++ [defaultRow]) store.length kwargs
        s' r' ha hr'
    · rw [hvk] at ha
      injection ha with _ h2
      cases h2

/-- **C1, witness.** Updating `input_size` to 7 on a default row succeeds
and the resulting row satisfies the derived-field consistency property for
the written key set. -/
theorem C1_derived_recomputed_on_trigger_witness :
    derivedConsistent defaultHelpers sampleFormats ["input_size"]
      { defaultRow with input_size := 7, input_size_display := "7 B" } :=
  (C1_derived_recomputed_on_trigger defaultHelpers sampleFormats).1
    [defaultRow] 0 [("input_size", Value.vInt 7)]
    [{ defaultRow with input_size := 7, input_size_display := "7 B" }]
    { defaultRow with input_size := 7, input_size_display := "7 B" }
    (by decide) rfl

theorem buildFormatsExts_lookup (fmts : FormatsTable)
    (exts : List (String × String)) (fmt : String) (fi : FormatInfo)
    (ext : String) (rest : List String)
    (hb : buildFormatsExts fmts = some exts)
    (hf : fmts.lookup fmt = some fi) (he : fi.exts = ext :: rest) :
    exts.lookup fmt = some ext := by
  induction fmts generalizing exts with
  | nil => simp [List.lookup] at hf
  | cons kv tail ih =>
      rcases kv with ⟨fid, info⟩
      unfold buildFormatsExts at hb
      rcases hh : info.exts.head? with _ | e
      · rw [hh] at hb; cases hb
      · rw [hh] at hb
        rcases hb2 : buildFormatsExts tail with _ | tl
        · rw [hb2] at hb; cases hb
        · rw [hb2] at hb
          injection hb with hb3
          subst hb3
          by_cases heq : fmt = fid
          · subst heq
            rw [List.lookup_cons_self] at hf
            injection hf with hf2
            subst hf2
            rw [he] at hh
            injection hh with hh2
            subst hh2
            exact List.lookup_cons_self
          · have hbeq : (fmt == fid) = false := by
              simp [heq]
            rw [List.lookup, hbeq] at hf
            rw [List.lookup, hbeq]
            exact ih tl hb2 hf

theorem update_success_row (h : Helpers) (fmts : FormatsTable)
    (store : Store) (index : Nat) (kwargs : Kwargs) (s' : Store)
    (hne : kwargs ≠ [])
    (hu : ImageStore.update h fmts store index kwargs = (s', none)) :
    ∃ r r1, store.get? index = some r ∧
      rowUpdate h fmts kwargs r = (r1, none) ∧
      s' = store.set index r1 ∧ s'.get? index = some r1 := by
  unfold ImageStore.update at hu
  rcases hvk : validateKeys kwargs with _ | k
  · rw [hvk] at hu
    dsimp only at hu
    rw [if_neg (by simpa [List.isEmpty_iff] using hne)] at hu
    rcases hg : store.get? index with _ | r
    · rw [hg] at hu
      injection hu with _ h2
      cases h2
    · rw [hg] at hu
      dsimp only at hu
      rcases hru : rowUpdate h fmts kwargs r with ⟨rr, ee⟩
      rw [hru] at hu
      injection hu with h1 h2
      subst h2
      refine ⟨r, rr, rfl, hru, h1.symm, ?_⟩
      have hi : index < store.length := by
        by_contra hge
        rw [List.get?_eq_none.mpr (by omega)] at hg
        cases hg
      rw [← h1]
      simp [List.get?_eq_getElem?, List.getElem?_set_eq_of_lt rr hi]
  · rw [hvk] at hu
    injection hu with _ h2
    cases h2

theorem rowUpdate_output_format (h : Helpers) (fmts : FormatsTable)
    (fmt : String) (r r1 : Row)
    (hr : rowUpdate h fmts [("output_format", Value.vStr fmt)] r = (r1, none)) :
    r1.output_format = fmt ∧
    ∃ exts ext, buildFormatsExts fmts = some exts ∧
      exts.lookup fmt = some ext ∧
      r1.output_file = h.withSuffix r.output_file ext := by
  unfold rowUpdate at hr
  obtain ⟨rE, hhE, hc6⟩ := thenRow_none _ _ _ hr
  obtain ⟨rD, hhD, hc5⟩ := thenRow_none _ _ _ hhE
  obtain ⟨rC, hhC, hc4⟩ := thenRow_none _ _ _ hhD
  obtain ⟨rB, hhB, hc3⟩ := thenRow_none _ _ _ hhC
  obtain ⟨rA, hhA, hc2⟩ := thenRow_none _ _ _ hhB
  obtain ⟨r0, hw, hc1⟩ := thenRow_none _ _ _ hhA
  have hw2 : writeFields r [("output_format", Value.vStr fmt)]
      = ({ r with output_format := fmt }, none) := rfl
  rw [hw2] at hw
  injection hw with hw3 _
  subst hw3
  obtain ⟨A1, A2, A3, A4, A5, A6, A7, A8, A9, A10, A11, A12, A13, A14, A15, A16⟩ :=
    cascadeInputFile_success h _ _ rA hc1
  have hA : rA = { r with output_format := fmt } := A15 rfl
  subst hA
  obtain ⟨B1, B2, B3, B4, B5, B6, B7, B8, B9, B10, B11, B12, B13, B14, B15⟩ :=
    cascadeFormat_success h fmts _ _ rB hc2
  obtain ⟨-, exts, ext, hbe, hlk, hof⟩ := B15 rfl
  obtain ⟨C1, C2, C3, C4, C5, C6, C7, C8, C9, C10, C11, C12, C13, C14, C15, C16⟩ :=
    cascadeOutputFileDisplay_success h _ _ rC hc3
  obtain ⟨D1, D2, D3, D4, D5, D6, D7, D8, D9, D10, D11, D12, D13, D14, D15, D16⟩ :=
    cascadeInputSize_success h _ _ rD hc4
  obtain ⟨E1, E2, E3, E4, E5, E6, E7, E8, E9, E10, E11, E12, E13, E14, E15, E16⟩ :=
    cascadeOutputSize_success h _ _ rE hc5
  obtain ⟨F1, F2, F3, F4, F5, F6, F7, F8, F9, F10, F11, F12, F13, F14, F15, F16⟩ :=
    cascadeStatus_success h _ _ r1 hc6
  constructor
  · rw [F9, E8, D8, C8, B8]
  · refine ⟨exts, ext, hbe, hlk, ?_⟩
    rw [F3, E3, D3, C3, hof]

/-- **C7.** A single `update` writing `output_format` triggers the
recomputation cascade on that row: `output_format_display` is set to the
format's display name (with the quality percentage for `jpeg`/`webp` and a
slow marker for `png` when `png_slow_optimization` is set — the content of
`outputFormatDisplayOf`), `output_file`'s extension is rewritten with the
new format's first extension via `with_suffix`, and `output_file_display`
is recomputed as `output_file` relative to the input file's directory (the
content of `outputFileDisplayOf`). -/
theorem C7_output_format_cascade (h : Helpers) (fmts : FormatsTable)
    (store : Store) (index : Nat) (fmt : String) (s' : Store) (r r' : Row)
    (fi : FormatInfo) (ext : String) (rest : List String)
    (hrow : store.get? index = some r)
    (hupd : ImageStore.update h fmts store index
        [("output_format", Value.vStr fmt)] = (s', none))
    (hr' : s'.get? index = some r')
    (hfi : fmts.lookup fmt = some fi) (hexts : fi.exts = ext :: rest) :
    r'.output_format = fmt ∧
    outputFormatDisplayOf fmts r' = some r'.output_format_display ∧
    r'.output_file = h.withSuffix r.output_file ext ∧
    r'.output_file_display = outputFileDisplayOf h r' := by
  obtain ⟨-, hdisp, hofd, -, -, -⟩ :=
    update_derived h fmts store index _ s' r' hupd hr'
  obtain ⟨r2, r1, hg, hru, hset, hget⟩ :=
    update_success_row h fmts store index _ s' (by simp) hupd
  rw [hrow] at hg
  injection hg with hg2
  subst hg2
  rw [hget] at hr'
  injection hr' with hr2
  subst hr2
  obtain ⟨hfmt, exts, ext2, hbe, hlk, hof⟩ :=
    rowUpdate_output_format h fmts fmt r r1 hru
  have hlk2 : exts.lookup fmt = some ext :=
    buildFormatsExts_lookup fmts exts fmt fi ext rest hbe hfi hexts
  rw [hlk2] at hlk
  injection hlk with hlk3
  subst hlk3
  exact ⟨hfmt, hdisp rfl, hof, hofd rfl⟩

/-- A PNG row used to exercise the C7 cascade concretely. -/
def c7Row : Row :=
  { defaultRow with
    input_file := "/tmp/a.png"
    output_file := "/tmp/a.opti.png"
    output_format := "png"
    jpeg_quality := 80 }

/-- The row produced by updating `c7Row`'s `output_format` to `jpeg`. -/
def c7Result : Row :=
  { c7Row with
    output_format := "jpeg"
    output_format_display := "JPEG (80 %)"
    output_file := "/tmp/a.opti.jpg"
    output_file_display := "a.opti.jpg" }

/-- **C7, witness.** Switching the sample PNG row's output format to
`jpeg` rewrites the output file's extension to `.jpg`, renders the display
name with the jpeg quality, and recomputes the relative display path. -/
theorem C7_output_format_cascade_witness :
    c7Result.output_format = "jpeg" ∧
    outputFormatDisplayOf sampleFormats c7Result
      = some c7Result.output_format_display ∧
    c7Result.output_file = defaultHelpers.withSuffix c7Row.output_file ".jpg" ∧
    c7Result.output_file_display = outputFileDisplayOf defaultHelpers c7Result :=
  C7_output_format_cascade defaultHelpers sampleFormats [c7Row] 0 "jpeg"
    [c7Result] c7Row c7Result
    { display_name := "JPEG", exts := [".jpg", ".jpeg"] } ".jpg" [".jpeg"]
    rfl (by decide) rfl (by decide) rfl

/-! ## The polling loop -/

/-- The status constant the polling loop writes for a future in the given
state (`running()` → IN_PROGRESS = 2, else `done()` → DONE = 3, otherwise
PENDING = 1). -/
def futureStatusCode (s : FutStatus) : Int :=
  if s.isRunning then 2 else if s.isDone then 3 else 1

theorem rowUpdate_status (h : Helpers) (fmts : FormatsTable) (c z : Int)
    (r r1 : Row)
    (hr : rowUpdate h fmts [("status", Value.vInt c), ("output_size", Value.vInt z)] r
        = (r1, none)) :
    r1.status = c := by
  unfold rowUpdate at hr
  obtain ⟨rE, hhE, hc6⟩ := thenRow_none _ _ _ hr
  obtain ⟨rD, hhD, hc5⟩ := thenRow_none _ _ _ hhE
  obtain ⟨rC, hhC, hc4⟩ := thenRow_none _ _ _ hhD
  obtain ⟨rB, hhB, hc3⟩ := thenRow_none _ _ _ hhC
  obtain ⟨rA, hhA, hc2⟩ := thenRow_none _ _ _ hhB
  obtain ⟨r0, hw, hc1⟩ := thenRow_none _ _ _ hhA
  have hw2 : writeFields r [("status", Value.vInt c), ("output_size", Value.vInt z)]
      = ({ r with status := c, output_size := z }, none) := rfl
  rw [hw2] at hw
  injection hw with hw3 _
  subst hw3
  obtain ⟨A1, A2, A3, A4, A5, A6, A7, A8, A9, A10, A11, A12, A13, A14, A15, A16⟩ :=
    cascadeInputFile_success h _ _ rA hc1
  obtain ⟨B1, B2, B3, B4, B5, B6, B7, B8, B9, B10, B11, B12, B13, B14, B15⟩ :=
    cascadeFormat_success h fmts _ _ rB hc2
  obtain ⟨C1, C2, C3, C4, C5, C6, C7, C8, C9, C10, C11, C12, C13, C14, C15, C16⟩ :=
    cascadeOutputFileDisplay_success h _ _ rC hc3
  obtain ⟨D1, D2, D3, D4, D5, D6, D7, D8, D9, D10, D11, D12, D13, D14, D15, D16⟩ :=
    cascadeInputSize_success h _ _ rD hc4
  obtain ⟨E1, E2, E3, E4, E5, E6, E7, E8, E9, E10, E11, E12, E13, E14, E15, E16⟩ :=
    cascadeOutputSize_success h _ _ rE hc5
  obtain ⟨F1, F2, F3, F4, F5, F6, F7, F8, F9, F10, F11, F12, F13, F14, F15, F16⟩ :=
    cascadeStatus_success h _ _ r1 hc6
  rw [F11, E10, D10, C10, B9, A10]

theorem update_status_success (h : Helpers) (fmts : FormatsTable)
    (store : Store) (i : Nat) (c z : Int) (s' : Store)
    (hu : ImageStore.update h fmts store i
        [("status", Value.vInt c), ("output_size", Value.vInt z)] = (s', none)) :
    ∃ r', s'.get? i = some r' ∧ r'.status = c := by
  obtain ⟨r, r1, -, hru, -, hget⟩ :=
    update_success_row h fmts store i _ s' (by simp) hu
  exact ⟨r1, hget, rowUpdate_status h fmts c z r r1 hru⟩

theorem update_fst_get?_ne (h : Helpers) (fmts : FormatsTable)
    (store : Store) (i : Nat) (kwargs : Kwargs) (j : Nat) (hij : j ≠ i) :
    (ImageStore.update h fmts store i kwargs).1.get? j = store.get? j := by
  unfold ImageStore.update
  rcases validateKeys kwargs with _ | k
  · dsimp only
    by_cases he : kwargs.isEmpty
    · rw [if_pos he]
    · rw [if_neg he]
      rcases store.get? i with _ | r
      · rfl
      · dsimp only
        simp [List.get?_eq_getElem?, List.getElem?_set_ne (Ne.symm hij)]
  · rfl

theorem pollStep_fst_get?_ne (h : Helpers) (fmts : FormatsTable)
    (store : Store) (i : Nat) (f : AppFuture) (j : Nat) (hij : j ≠ i) :
    (pollStep h fmts store i f).1.get? j = store.get? j := by
  unfold pollStep
  by_cases hrn : f.status.isRunning
  · rw [if_pos hrn]
    exact update_fst_get?_ne h fmts store i _ j hij
  · rw [if_neg hrn]
    by_cases hdn : f.status.isDone
    · rw [if_pos hdn]
      rcases ImageStore.get store i with _ | row
      · rfl
      · exact update_fst_get?_ne h fmts store i _ j hij
    · rw [if_neg hdn]
      exact update_fst_get?_ne h fmts store i _ j hij

theorem pollStep_success (h : Helpers) (fmts : FormatsTable) (store : Store)
    (i : Nat) (f : AppFuture) (s1 : Store) (b1 : Bool)
    (hps : pollStep h fmts store i f = (s1, b1, none)) :
    (∃ r', s1.get? i = some r' ∧ r'.status = futureStatusCode f.status) ∧
    b1 = f.status.isRunning := by
  unfold pollStep at hps
  by_cases hrn : f.status.isRunning
  · rw [if_pos hrn] at hps
    simp only [Prod.mk.injEq] at hps
    obtain ⟨hs1, hb1, he⟩ := hps
    subst hs1
    subst hb1
    have hu : ImageStore.update h fmts store i
        [("status", Value.vInt 2), ("output_size", Value.vInt 0)]
        = ((ImageStore.update h fmts store i
            [("status", Value.vInt 2), ("output_size", Value.vInt 0)]).1, none) := by
      rw [← he]
    obtain ⟨r', hg, hst⟩ := update_status_success h fmts store i 2 0 _ hu
    refine ⟨⟨r', hg, ?_⟩, hrn.symm⟩
    rw [hst]
    unfold futureStatusCode
    rw [if_pos hrn]
  · rw [if_neg hrn] at hps
    by_cases hdn : f.status.isDone
    · rw [if_pos hdn] at hps
      rcases hgrow : ImageStore.get store i with _ | row
      · rw [hgrow] at hps
        simp at hps
      · rw [hgrow] at hps
        simp only [Prod.mk.injEq] at hps
        obtain ⟨hs1, hb1, he⟩ := hps
        subst hs1
        subst hb1
        have hu : ImageStore.update h fmts store i
            [("status", Value.vInt 3),
             ("output_size", Value.vInt (h.fileSize row.output_file))]
            = ((ImageStore.update h fmts store i
                [("status", Value.vInt 3),
                 ("output_size", Value.vInt (h.fileSize row.output_file))]).1,
               none) := by
          rw [← he]
        obtain ⟨r', hg, hst⟩ :=
          update_status_success h fmts store i 3 (h.fileSize row.output_file) _ hu
        refine ⟨⟨r', hg, ?_⟩, by simp [hrn]⟩
        rw [hst]
        unfold futureStatusCode
        rw [if_neg hrn, if_pos hdn]
    · rw [if_neg hdn] at hps
      simp only [Prod.mk.injEq] at hps
      obtain ⟨hs1, hb1, he⟩ := hps
      subst hs1
      subst hb1
      have hu : ImageStore.update h fmts store i
          [("status", Value.vInt 1), ("output_size", Value.vInt 0)]
          = ((ImageStore.update h fmts store i
              [("status", Value.vInt 1), ("output_size", Value.vInt 0)]).1,
             none) := by
        rw [← he]
      obtain ⟨r', hg, hst⟩ := update_status_success h fmts store i 1 0 _ hu
      refine ⟨⟨r', hg, ?_⟩, by simp [hrn]⟩
      rw [hst]
      unfold futureStatusCode
      rw [if_neg hrn, if_neg hdn]

theorem pollLoop_fst_get?_lt (h : Helpers) (fmts : FormatsTable)
    (futs : List AppFuture) :
    ∀ (i : Nat) (store : Store) (b : Bool) (j : Nat), j < i →
      (pollLoop h fmts futs i store b).1.get? j = store.get? j := by
  induction futs with
  | nil => intro i store b j _; rfl
  | cons f rest ih =>
      intro i store b j hj
      unfold pollLoop
      rcases hps : pollStep h fmts store i f with ⟨s1, r1, e1⟩
      have hfst : s1.get? j = store.get? j := by
        rw [show s1 = (pollStep h fmts store i f).1 from by rw [hps]]
        exact pollStep_fst_get?_ne h fmts store i f j (by omega)
      cases e1 with
      | some e => dsimp only; exact hfst
      | none =>
          dsimp only
          rw [ih (i + 1) s1 (b || r1) j (by omega)]
          exact hfst

theorem pollLoop_success (h : Helpers) (fmts : FormatsTable)
    (futs : List AppFuture) :
    ∀ (i : Nat) (store : Store) (b : Bool) (s' : Store) (b' : Bool),
      pollLoop h fmts futs i store b = (s', b', none) →
      (∀ k (hk : k < futs.length), ∃ r',
          s'.get? (i + k) = some r' ∧
          r'.status = futureStatusCode (futs.get ⟨k, hk⟩).status) ∧
      b' = (b || futs.any (fun f => f.status.isRunning)) := by
  induction futs with
  | nil =>
      intro i store b s' b' hl
      unfold pollLoop at hl
      simp only [Prod.mk.injEq] at hl
      obtain ⟨hs, hb, -⟩ := hl
      subst hs
      subst hb
      refine ⟨?_, by simp⟩
      intro k hk
      exact absurd hk (by simp)
  | cons f rest ih =>
      intro i store b s' b' hl
      unfold pollLoop at hl
      rcases hps : pollStep h fmts store i f with ⟨s1, r1, e1⟩
      rw [hps] at hl
      cases e1 with
      | some e => simp at hl
      | none =>
          dsimp only at hl
          obtain ⟨⟨rstep, hrstep, hcode⟩, hb1⟩ :=
            pollStep_success h fmts store i f s1 r1 hps
          obtain ⟨IH1, IH2⟩ := ih (i + 1) s1 (b || r1) s' b' hl
          constructor
          · intro k hk
            cases k with
            | zero =>
                refine ⟨rstep, ?_, ?_⟩
                · have hs' : s' = (pollLoop h fmts rest (i + 1) s1 (b || r1)).1 := by
                    rw [hl]
                  rw [Nat.add_zero, hs',
                    pollLoop_fst_get?_lt h fmts rest (i + 1) s1 (b || r1) i
                      (by omega)]
                  exact hrstep
                · simpa using hcode
            | succ k2 =>
                have hk2 : k2 < rest.length := by
                  simpa using hk
                obtain ⟨r', hg, hcd⟩ := IH1 k2 hk2
                refine ⟨r', ?_, ?_⟩
                · rw [show i + (k2 + 1) = (i + 1) + k2 from by omega]
                  exact hg
                · simpa using hcd
          · rw [IH2, hb1]
            simp [Bool.or_assoc]

/-- **C5.** The status-polling step never polls outside the `optimize`
state (it returns at once, changing nothing); inside it — when no store
update raises — it writes every row's status from its future (`running()` →
IN_PROGRESS = 2, `done()` → DONE = 3, otherwise PENDING = 1), re-arms
itself on the fixed timer interval if and only if at least one future was
running, and otherwise ends the run by calling `stop_optimization` (the
state going back to `manage`). -/
theorem C5_status_polling (h : Helpers) (fmts : FormatsTable) :
    (∀ app : App, app.current_state ≠ some STATE_OPTIMIZE →
        updateOptimizationStatus h fmts app = (app, PollResult.notOptimizing)) ∧
    (∀ app : App, app.current_state = some STATE_OPTIMIZE →
      (∀ e, (updateOptimizationStatus h fmts app).2 ≠ PollResult.errored e) →
      (∀ i (hi : i < app.futures.length), ∃ r',
          (updateOptimizationStatus h fmts app).1.image_store.get? i = some r' ∧
          r'.status = futureStatusCode (app.futures.get ⟨i, hi⟩).status) ∧
      ((updateOptimizationStatus h fmts app).2
          = PollResult.rearmed pollIntervalSeconds ↔
        app.futures.any (fun f => f.status.isRunning) = true) ∧
      ((updateOptimizationStatus h fmts app).2
          = PollResult.rearmed pollIntervalSeconds ∨
        ((updateOptimizationStatus h fmts app).2 = PollResult.stopped ∧
         (updateOptimizationStatus h fmts app).1.current_state
            = some STATE_MANAGE_IMAGES))) := by
  constructor
  · intro app hs
    unfold updateOptimizationStatus
    rw [if_pos hs]
  · intro app hs herr
    have hne : ¬ (app.current_state ≠ some STATE_OPTIMIZE) := by simp [hs]
    rcases hp : pollLoop h fmts app.futures 0 app.image_store false
      with ⟨s1, b1, e1⟩
    cases e1 with
    | some e =>
        have hU : updateOptimizationStatus h fmts app
            = ({ app with image_store := s1 }, PollResult.errored e) := by
          unfold updateOptimizationStatus
          rw [if_neg hne, hp]
        exact absurd (by rw [hU]) (herr e)
    | none =>
        obtain ⟨hstat, hbool⟩ :=
          pollLoop_success h fmts app.futures 0 app.image_store false s1 b1 hp
        rw [Bool.false_or] at hbool
        cases b1 with
        | true =>
            have hU : updateOptimizationStatus h fmts app
                = ({ app with image_store := s1 },
                   PollResult.rearmed pollIntervalSeconds) := by
              unfold updateOptimizationStatus
              rw [if_neg hne, hp]
              rfl
            refine ⟨?_, ?_, ?_⟩
            · intro i hi
              obtain ⟨r', hg, hcd⟩ := hstat i hi
              exact ⟨r', by rw [hU]; simpa using hg, hcd⟩
            · rw [hU]
              simp [hbool.symm]
            · left; rw [hU]
        | false =>
            have hU : updateOptimizationStatus h fmts app
                = (stop_optimization { app with image_store := s1 },
                   PollResult.stopped) := by
              unfold updateOptimizationStatus
              rw [if_neg hne, hp]
              rfl
            refine ⟨?_, ?_, ?_⟩
            · intro i hi
              obtain ⟨r', hg, hcd⟩ := hstat i hi
              refine ⟨r', ?_, hcd⟩
              rw [hU, stop_optimization_image_store]
              simpa using hg
            · rw [hU]
              constructor
              · intro hco; cases hco
              · intro hany; rw [← hbool] at hany; cases hany
            · right
              refine ⟨by rw [hU], ?_⟩
              rw [hU]
              unfold stop_optimization
              rw [if_neg (by simp [hs])]

/-- A sample application mid-optimization: two rows, the first future seen
running and the second finished. -/
def appPolling : App :=
  { current_state := some STATE_OPTIMIZE
    image_store := [rowPngSlow, rowPngSlow]
    executor := some { max_workers := 2, isShutdown := false }
    futures := [{ call := mkSubmission rowPngSlow, status := FutStatus.runningF },
                { call := mkSubmission rowPngSlow, status := FutStatus.doneF }] }

/-- **C5, witness.** On the sample mid-optimization application (one future
running) the poll re-arms itself on the fixed interval, and on the sample
managing application it returns immediately without polling. -/
theorem C5_status_polling_witness :
    (updateOptimizationStatus defaultHelpers sampleFormats appPolling).2
        = PollResult.rearmed pollIntervalSeconds ∧
    updateOptimizationStatus defaultHelpers sampleFormats appPngSlow
        = (appPngSlow, PollResult.notOptimizing) := by
  constructor
  · have hre : (updateOptimizationStatus defaultHelpers sampleFormats appPolling).2
        = PollResult.rearmed pollIntervalSeconds := rfl
    exact ((C5_status_polling defaultHelpers sampleFormats).2 appPolling rfl
      (fun e hcontra => by rw [hre] at hcontra; cases hcontra)).2.1.mpr (by decide)
  · exact (C5_status_polling defaultHelpers sampleFormats).1 appPngSlow (by decide)
